import Mathlib

/-!
Verification of the KMD binary model importer
(`src/_external_shared/KalaHeaders/import_kmd.hpp`, function `ImportKMD`).

The importer reads a `.kmd` file into a byte buffer and decodes, in order:
a fixed 18-byte top header, a region of 28-byte model-table entries, and
one 148-byte-plus-payload model block per table entry.  The shallow
embedding below mirrors the C++ source:

* file contents are a `List Nat` of bytes (each read is normalized
  `% 256`, as the buffer holds `u8`);
* `u32` values are little-endian, and the one place the source adds two
  `u32` fields (`t.blockOffset + t.blockSize`) is modelled with an
  explicit `% 2^32`, matching C++ unsigned wrap-around;
* IEEE-754 binary32 values are modelled exactly: a finite float is
  `m * 2^(-149)` for an integer `m`, so the source's float comparisons
  become exact integer comparisons (`F32.nan` compares false both ways,
  as in IEEE);
* a `memcpy` whose source or destination range leaves its buffer is
  undefined behaviour in the C++; the model makes that outcome explicit
  as a distinguished `oob` result;
* the filesystem preflight and the `try`/`catch` wrapper are modelled by
  an environment record whose fields give the outcome of each external
  query (`none` standing for "the call threw").
-/

set_option maxRecDepth 40000
set_option maxHeartbeats 2000000

namespace KMD

/-- Magic constant: bytes 'K','M','D','\0' read as a little-endian u32. -/
def KMD_MAGIC : Nat := 4476235

/-- Required kmd binary version (fifth byte of the file). -/
def KMD_VERSION : Nat := 1

/-- Fixed size of the top header. -/
def CORRECT_MODEL_HEADER_SIZE : Nat := 18

/-- Fixed size of one model-table entry. -/
def CORRECT_MODEL_TABLE_SIZE : Nat := 28

/-- Offset of vertex data relative to the start of each model block. -/
def VERTICE_DATA_OFFSET : Nat := 148

/-- Max allowed models. -/
def MAX_MODEL_COUNT : Nat := 1024

/-- Max allowed total model-table size in bytes. -/
def MAX_MODEL_TABLE_SIZE : Nat := 28672

/-- Max allowed total model-block size in bytes. -/
def MAX_MODEL_BLOCK_SIZE : Nat := 1073741824

/-- Minimum allowed kmd file size: header + one table entry + block metadata. -/
def MIN_TOTAL_SIZE : Nat :=
  CORRECT_MODEL_HEADER_SIZE + CORRECT_MODEL_TABLE_SIZE + VERTICE_DATA_OFFSET

/-- Maximum allowed kmd file size. -/
def MAX_TOTAL_SIZE : Nat :=
  CORRECT_MODEL_HEADER_SIZE + MAX_MODEL_TABLE_SIZE + MAX_MODEL_BLOCK_SIZE

/-- An IEEE-754 binary32 value, as far as the importer observes one.
A finite value `fin m` denotes the real number `m * 2^(-149)`; this
represents every finite binary32 exactly (`2^(-149)` is the subnormal
ulp).  `+0.0` and `-0.0` both map to `fin 0`, which is correct for the
comparisons the importer performs. -/
inductive F32 where
  | fin (m : Int)
  | inf (neg : Bool)
  | nan
deriving DecidableEq

/-- Reinterpret a 32-bit pattern as a binary32 value (what the source's
`memcpy` into a `f32` does on a little-endian target). -/
def f32ofBits (bits : Nat) : F32 :=
  let b := bits % 4294967296
  let sgn := b / 2147483648
  let ex := (b / 8388608) % 256
  let frac := b % 8388608
  if ex = 255 then
    if frac = 0 then .inf (sgn = 1) else .nan
  else
    -- subnormal: frac * 2^(-149); normal: (2^23 + frac) * 2^(ex - 150)
    let m : Nat := if ex = 0 then frac else (8388608 + frac) * 2 ^ (ex - 1)
    .fin (if sgn = 1 then -(m : Int) else (m : Int))

/-- IEEE `<` on binary32: false whenever either operand is NaN. -/
def f32lt : F32 → F32 → Bool
  | .nan, _ => false
  | _, .nan => false
  | .inf n1, .inf n2 => n1 && !n2
  | .inf n1, .fin _ => n1
  | .fin _, .inf n2 => !n2
  | .fin a, .fin b => a < b

/-- IEEE `>` on binary32. -/
def f32gt (a b : F32) : Bool := f32lt b a

/-- The binary32 value of the literal `-10000.0f` (exactly representable). -/
def MIN_POS : F32 := .fin (-(10000 * 2 ^ 149))

/-- The binary32 value of the literal `10000.0f` (exactly representable). -/
def MAX_POS : F32 := .fin (10000 * 2 ^ 149)

/-- The binary32 value of the literal `0.01f`: bit pattern `0x3C23D70A`,
i.e. `10737418 * 2^(-30)`, slightly below the rational 1/100. -/
def MIN_SIZE : F32 := .fin (10737418 * 2 ^ 119)

/-- The binary32 value of the literal `10000.0f`. -/
def MAX_SIZE : F32 := .fin (10000 * 2 ^ 149)

/-- Byte `i` of the file buffer.  Reads are normalized `% 256` because the
C++ buffer holds `u8`; callers that can be out of bounds are guarded
separately (an unguarded out-of-bounds `memcpy` is modelled as `oob`,
never via this total function). -/
def byteAt (d : List Nat) (i : Nat) : Nat := (d.getD i 0) % 256

/-- Little-endian u32 at offset `i`. -/
def u32At (d : List Nat) (i : Nat) : Nat :=
  byteAt d i + 256 * byteAt d (i + 1) + 65536 * byteAt d (i + 2)
    + 16777216 * byteAt d (i + 3)

/-- binary32 at offset `i` (little-endian bit pattern). -/
def f32At (d : List Nat) (i : Nat) : F32 := f32ofBits (u32At d i)

/-- The `n` bytes starting at offset `i` (contents of a `memcpy` whose
source range is known to be in bounds). -/
def bytesAt (d : List Nat) (i n : Nat) : List Nat :=
  (List.range n).map (fun k => byteAt d (i + k))

/-- The main header at the top of each kmd file. -/
structure ModelHeader where
  magic : Nat := KMD_MAGIC
  version : Nat := KMD_VERSION
  scaleFactor : Nat := 0
  modelCount : Nat := 0
  modelTablesSize : Nat := 0
  modelBlocksSize : Nat := 0
deriving DecidableEq

/-- One model-table entry: 20-byte name, block offset, block size. -/
structure ModelTable where
  nodeName : List Nat := []
  blockOffset : Nat := 0
  blockSize : Nat := 0
deriving DecidableEq

/-- One decoded model block.  `vertices` and `indices` hold the raw
payload bytes the source `memcpy`s into its typed arrays. -/
structure ModelBlock where
  nodeName : List Nat := []
  meshName : List Nat := []
  nodePath : List Nat := []
  dataTypeFlags : Nat := 0
  renderType : Nat := 0
  position : List F32 := []
  rotation : List F32 := []
  size : List F32 := []
  verticesOffset : Nat := 0
  verticesSize : Nat := 0
  indicesOffset : Nat := 0
  indicesSize : Nat := 0
  vertices : List Nat := []
  indices : List Nat := []
deriving DecidableEq

/-- The result enum returned by `ImportKMD`. -/
inductive ImportResult where
  | RESULT_SUCCESS
  | RESULT_FILE_NOT_FOUND
  | RESULT_INVALID_EXTENSION
  | RESULT_UNAUTHORIZED_READ
  | RESULT_FILE_LOCKED
  | RESULT_UNKNOWN_READ_ERROR
  | RESULT_FILE_EMPTY
  | RESULT_UNSUPPORTED_FILE_SIZE
  | RESULT_INVALID_MAGIC
  | RESULT_INVALID_VERSION
  | RESULT_INVALID_MODEL_COUNT
  | RESULT_INVALID_MODEL_POSITION
  | RESULT_INVALID_MODEL_SIZE
  | RESULT_INVALID_MODEL_TABLE_SIZE
  | RESULT_INVALID_MODEL_BLOCK_SIZE
  | RESULT_UNEXPECTED_EOF
deriving DecidableEq

/-- Outcome kind of one step: succeeded, returned an error result, or
performed an out-of-bounds buffer access (undefined behaviour in C++). -/
inductive OutKind where
  | kOk
  | kErr (r : ImportResult)
  | kOob
deriving DecidableEq

/-- Header decode: the size gates after `tellg` followed by the six
fixed-offset header fields with their eager checks, in source order.
All header reads are within offsets `0..17 < MIN_TOTAL_SIZE`, hence in
bounds once the size gates pass. -/
def parseHeader (d : List Nat) : Except ImportResult ModelHeader :=
  if d.length = 0 then .error .RESULT_FILE_EMPTY
  else if d.length < MIN_TOTAL_SIZE then .error .RESULT_UNSUPPORTED_FILE_SIZE
  else if d.length > MAX_TOTAL_SIZE then .error .RESULT_UNSUPPORTED_FILE_SIZE
  else if u32At d 0 ≠ KMD_MAGIC then .error .RESULT_INVALID_MAGIC
  else if byteAt d 4 ≠ KMD_VERSION then .error .RESULT_INVALID_VERSION
  else
    -- clamp to 0 for out of range scale-factor values
    let scaleFactor := if byteAt d 5 > 8 then 0 else byteAt d 5
    if u32At d 6 > MAX_MODEL_COUNT then .error .RESULT_INVALID_MODEL_COUNT
    else if u32At d 10 < CORRECT_MODEL_TABLE_SIZE
            ∨ u32At d 10 > MAX_MODEL_TABLE_SIZE then
      .error .RESULT_INVALID_MODEL_TABLE_SIZE
    else if u32At d 14 < VERTICE_DATA_OFFSET
            ∨ u32At d 14 > MAX_MODEL_BLOCK_SIZE then
      .error .RESULT_INVALID_MODEL_BLOCK_SIZE
    else .ok ⟨u32At d 0, byteAt d 4, scaleFactor, u32At d 6, u32At d 10, u32At d 14⟩

/-- The table entry whose three `memcpy`s read bytes `i .. i+27`. -/
def tableEntryAt (d : List Nat) (i : Nat) : ModelTable :=
  ⟨bytesAt d i 20, u32At d (i + 20), u32At d (i + 24)⟩

/-- One iteration of the table loop: the entry's reads cover bytes
`i .. i+27`; if they leave the buffer the access is out of bounds. -/
def readTableEntry (d : List Nat) (i : Nat) : Option ModelTable :=
  if i + CORRECT_MODEL_TABLE_SIZE ≤ d.length then some (tableEntryAt d i)
  else none

/-- `k` iterations of the table loop starting at offset `i` (structural
recursion on the iteration count). -/
def decodeTablesAux (d : List Nat) : Nat → Nat → Option (List ModelTable)
  | 0, _ => some []
  | k + 1, i =>
    match readTableEntry d i with
    | none => none
    | some t =>
      match decodeTablesAux d k (i + CORRECT_MODEL_TABLE_SIZE) with
      | none => none
      | some ts => some (t :: ts)

/-- The table loop: `for (i = 18; i < 18 + modelTablesSize; i += 28)`,
which performs exactly `⌈(stop - i) / 28⌉` iterations.  `none` means
some entry's read left the file buffer (the loop bound is never checked
against the file size in the source). -/
def decodeTables (d : List Nat) (i stop : Nat) : Option (List ModelTable) :=
  decodeTablesAux d ((stop - i + 27) / 28) i

/-- The check-and-read sequence of one block-loop iteration, in source
order, reduced to its outcome kind.  The reads interleaved between the
checks are reflected by the bounds guards (`kOob` = the corresponding
`memcpy` left a buffer):

1. `if (t.blockOffset + t.blockSize > fileSize)` — u32 addition, so the
   sum wraps modulo 2^32 before the comparison;
2. name/flag/position reads cover bytes `off .. off+103`;
3. position range check;
4. rotation and size reads cover bytes `off+104 .. off+131`;
5. size range check;
6. the four u32 sub-array fields cover bytes `off+132 .. off+147`;
7. `if (offset + 148 + verticesSize > fileSize)` — size_t arithmetic;
8. vertex copy: destination holds `(verticesSize / 48) * 48` bytes but
   `verticesSize` bytes are written, overflowing unless 48 ∣ verticesSize;
9. index copy source `off+148+verticesSize .. +indicesSize` is never
   checked against the file size;
10. index copy destination overflows unless 4 ∣ indicesSize. -/
def blockCheck (d : List Nat) (t : ModelTable) : OutKind :=
  let len := d.length
  let off := t.blockOffset
  if (t.blockOffset + t.blockSize) % 4294967296 > len then
    .kErr .RESULT_UNEXPECTED_EOF
  else if len < off + 104 then .kOob
  else if f32lt (f32At d (off + 92)) MIN_POS || f32gt (f32At d (off + 92)) MAX_POS
       || f32lt (f32At d (off + 96)) MIN_POS || f32gt (f32At d (off + 96)) MAX_POS
       || f32lt (f32At d (off + 100)) MIN_POS || f32gt (f32At d (off + 100)) MAX_POS
    then .kErr .RESULT_INVALID_MODEL_POSITION
  else if len < off + 132 then .kOob
  else if f32lt (f32At d (off + 120)) MIN_SIZE || f32gt (f32At d (off + 120)) MAX_SIZE
       || f32lt (f32At d (off + 124)) MIN_SIZE || f32gt (f32At d (off + 124)) MAX_SIZE
       || f32lt (f32At d (off + 128)) MIN_SIZE || f32gt (f32At d (off + 128)) MAX_SIZE
    then .kErr .RESULT_INVALID_MODEL_SIZE
  else if len < off + 148 then .kOob
  else if off + VERTICE_DATA_OFFSET + u32At d (off + 136) > len then
    .kErr .RESULT_UNEXPECTED_EOF
  else if u32At d (off + 136) % 48 ≠ 0 then .kOob
  else if off + VERTICE_DATA_OFFSET + u32At d (off + 136) + u32At d (off + 144) > len
    then .kOob
  else if u32At d (off + 144) % 4 ≠ 0 then .kOob
  else .kOk

/-- The block the source assembles when every check of `blockCheck`
passes, built from the same reads. -/
def blockAt (d : List Nat) (off : Nat) : ModelBlock :=
  { nodeName := bytesAt d off 20
    meshName := bytesAt d (off + 20) 20
    nodePath := bytesAt d (off + 40) 50
    dataTypeFlags := byteAt d (off + 90)
    renderType := byteAt d (off + 91)
    position := [f32At d (off + 92), f32At d (off + 96), f32At d (off + 100)]
    rotation := [f32At d (off + 104), f32At d (off + 108),
                 f32At d (off + 112), f32At d (off + 116)]
    size := [f32At d (off + 120), f32At d (off + 124), f32At d (off + 128)]
    verticesOffset := u32At d (off + 132)
    verticesSize := u32At d (off + 136)
    indicesOffset := u32At d (off + 140)
    indicesSize := u32At d (off + 144)
    vertices := bytesAt d (off + VERTICE_DATA_OFFSET) (u32At d (off + 136))
    indices := bytesAt d (off + VERTICE_DATA_OFFSET + u32At d (off + 136))
                       (u32At d (off + 144)) }

/-- Outcome of the block loop. -/
inductive BlocksOut where
  | bok (blocks : List ModelBlock)
  | berr (r : ImportResult)
  | boob
deriving DecidableEq

/-- The block loop, over the decoded table entries in order; aborts the
whole import at the first failing entry. -/
def decodeBlocks (d : List Nat) : List ModelTable → BlocksOut
  | [] => .bok []
  | t :: ts =>
    match blockCheck d t with
    | .kErr r => .berr r
    | .kOob => .boob
    | .kOk =>
      match decodeBlocks d ts with
      | .bok bs => .bok (blockAt d t.blockOffset :: bs)
      | .berr r => .berr r
      | .boob => .boob

/-- Kind of a `BlocksOut`. -/
def blocksKind : BlocksOut → OutKind
  | .bok _ => .kOk
  | .berr r => .kErr r
  | .boob => .kOob

/-- Overall outcome of the in-memory decode. -/
inductive DecodeOut where
  | ok (hdr : ModelHeader) (tables : List ModelTable) (blocks : List ModelBlock)
  | err (r : ImportResult)
  | oob
deriving DecidableEq

/-- The decode `ImportKMD` performs on the byte buffer it has read:
header, then table loop, then block loop. -/
def importKMDBytes (d : List Nat) : DecodeOut :=
  match parseHeader d with
  | .error r => .err r
  | .ok hdr =>
    match decodeTables d CORRECT_MODEL_HEADER_SIZE
        (CORRECT_MODEL_HEADER_SIZE + hdr.modelTablesSize) with
    | none => .oob
    | some tables =>
      match decodeBlocks d tables with
      | .bok blocks => .ok hdr tables blocks
      | .berr r => .err r
      | .boob => .oob

/-- The result value a `DecodeOut` corresponds to (`none` for the
undefined-behaviour outcome). -/
def retKind : DecodeOut → Option ImportResult
  | .ok _ _ _ => some .RESULT_SUCCESS
  | .err _r => some _r
  | .oob => none

/-- Tables of a `DecodeOut` (empty unless the decode succeeded). -/
def tablesOf : DecodeOut → List ModelTable
  | .ok _ ts _ => ts
  | _ => []

/-- Blocks of a `DecodeOut` (empty unless the decode succeeded). -/
def blocksOf : DecodeOut → List ModelBlock
  | .ok _ _ bs => bs
  | _ => []

/-- Linux errno value EBUSY. -/
def EBUSY : Nat := 16

/-- Linux errno value ETXTBSY. -/
def ETXTBSY : Nat := 26

/-- Environment of one `ImportKMD` call: the outcome of each external
query the function makes.  For the three filesystem calls that C++
permits to throw (`exists`, `is_regular_file`, `status`), `none` means
the call threw.  `openErrno = some e` means the `ifstream` open failed
with nonzero errno `e`.  `tryThrows` means some operation inside the
`try` block (stream use or an allocation) threw.  `content` is the byte
buffer a successful read yields. -/
structure Env where
  fsExists : Option Bool
  fsIsRegular : Option Bool
  hasExt : Bool
  extIsKmd : Bool
  canRead : Option Bool
  openErrno : Option Nat
  tryThrows : Bool
  content : List Nat

/-- Observable outcome of one `ImportKMD` call: a normal return carrying
the result tag and the final values of the three output parameters, an
exception escaping the function, or undefined behaviour. -/
inductive CallOutcome where
  | ret (r : ImportResult) (hdr : ModelHeader) (tables : List ModelTable)
        (blocks : List ModelBlock)
  | escape
  | ubCrash
deriving DecidableEq

/-- `ImportKMD`: preflight checks (outside the `try`), then the guarded
open/read/decode.  `hdr0`, `tbl0`, `blk0` are the values the caller's
output parameters hold at the call; the source assigns them only after
the whole decode succeeded (the three assignments are non-throwing
moves). -/
def ImportKMD (env : Env) (hdr0 : ModelHeader) (tbl0 : List ModelTable)
    (blk0 : List ModelBlock) : CallOutcome :=
  match env.fsExists with
  | none => .escape
  | some false => .ret .RESULT_FILE_NOT_FOUND hdr0 tbl0 blk0
  | some true =>
    match env.fsIsRegular with
    | none => .escape
    | some reg =>
      if !reg || !env.hasExt || !env.extIsKmd then
        .ret .RESULT_INVALID_EXTENSION hdr0 tbl0 blk0
      else
        match env.canRead with
        | none => .escape
        | some false => .ret .RESULT_UNAUTHORIZED_READ hdr0 tbl0 blk0
        | some true =>
          if env.tryThrows then .ret .RESULT_UNKNOWN_READ_ERROR hdr0 tbl0 blk0
          else
            match env.openErrno with
            | some e =>
              if e = EBUSY ∨ e = ETXTBSY then
                .ret .RESULT_FILE_LOCKED hdr0 tbl0 blk0
              else .ret .RESULT_UNKNOWN_READ_ERROR hdr0 tbl0 blk0
            | none =>
              match importKMDBytes env.content with
              | .ok h t b => .ret .RESULT_SUCCESS h t b
              | .err r => .ret r hdr0 tbl0 blk0
              | .oob => .ubCrash

/-- Decidable equality for header-decode results. -/
instance headerResultDecEq : DecidableEq (Except ImportResult ModelHeader) := fun a b =>
  match a, b with
  | .error x, .error y =>
    match decEq x y with
    | isTrue h => isTrue (h ▸ rfl)
    | isFalse h => isFalse (fun hh => h (by cases hh; rfl))
  | .ok x, .ok y =>
    match decEq x y with
    | isTrue h => isTrue (h ▸ rfl)
    | isFalse h => isFalse (fun hh => h (by cases hh; rfl))
  | .error _, .ok _ => isFalse (fun hh => by cases hh)
  | .ok _, .error _ => isFalse (fun hh => by cases hh)

/-- Well-formedness of the table entry whose fields start at offset `i`,
together with the block it points to: the entry's block range lies within
the file (so the u32 bounds check passes without wrapping), the block's
vertex and index payloads lie within the file, the payload sizes are
whole numbers of 48-byte vertices and 4-byte indices (so the destination
copies fit), and the decoded position and scale components are inside
the importer's ranges.  These are exactly the per-entry conditions under
which one block-loop iteration succeeds. -/
def entryOK (d : List Nat) (i : Nat) : Bool :=
  let off := u32At d (i + 20)
  let vs := u32At d (off + 136)
  let isz := u32At d (off + 144)
  decide (off + u32At d (i + 24) ≤ d.length)
  && decide (off + VERTICE_DATA_OFFSET + vs + isz ≤ d.length)
  && decide (vs % 48 = 0) && decide (isz % 4 = 0)
  && !(f32lt (f32At d (off + 92)) MIN_POS) && !(f32gt (f32At d (off + 92)) MAX_POS)
  && !(f32lt (f32At d (off + 96)) MIN_POS) && !(f32gt (f32At d (off + 96)) MAX_POS)
  && !(f32lt (f32At d (off + 100)) MIN_POS) && !(f32gt (f32At d (off + 100)) MAX_POS)
  && !(f32lt (f32At d (off + 120)) MIN_SIZE) && !(f32gt (f32At d (off + 120)) MAX_SIZE)
  && !(f32lt (f32At d (off + 124)) MIN_SIZE) && !(f32gt (f32At d (off + 124)) MAX_SIZE)
  && !(f32lt (f32At d (off + 128)) MIN_SIZE) && !(f32gt (f32At d (off + 128)) MAX_SIZE)

/-! ### Concrete inputs used by the claim theorems and witnesses -/

/-- A minimal well-formed 194-byte kmd file: header (magic, version 1,
scale selector 2, 1 model, table region 28, block region 148), one table
entry pointing at offset 46 with size 148, and one block whose position
is `0.0` everywhere, scale `1.0f` per axis, and empty vertex/index
payloads. -/
def goodFile : List Nat :=
  [75, 77, 68, 0, 1, 2, 1, 0, 0, 0, 28, 0, 0, 0, 148, 0, 0, 0]
  ++ List.replicate 20 0 ++ [46, 0, 0, 0] ++ [148, 0, 0, 0]
  ++ List.replicate 120 0
  ++ [0, 0, 128, 63] ++ [0, 0, 128, 63] ++ [0, 0, 128, 63]
  ++ List.replicate 16 0

/-- The header `goodFile` decodes to. -/
def goodHdr : ModelHeader := ⟨4476235, 1, 2, 1, 28, 148⟩

/-- The single table entry of `goodFile`. -/
def goodEntry : ModelTable := ⟨List.replicate 20 0, 46, 148⟩

/-- A 194-byte file passing every header check whose `modelTablesSize`
field claims 196 bytes of table region: the table loop then reads past
the end of the 194-byte buffer (at stride `i = 186` it reads bytes
`186..213`). -/
def c1File : List Nat :=
  [75, 77, 68, 0, 1, 0, 1, 0, 0, 0, 196, 0, 0, 0, 148, 0, 0, 0]
  ++ List.replicate 176 0

/-- A 1148-byte file with one table entry whose `blockOffset = 1000` and
`blockSize = 2^32 - 1000`: the exact sum is `2^32`, far beyond the file
length, but the source's u32 addition wraps to `0` and the bounds check
passes; the block itself (at offset 1000) is well formed, so the import
succeeds. -/
def c4File : List Nat :=
  [75, 77, 68, 0, 1, 0, 1, 0, 0, 0, 28, 0, 0, 0, 148, 0, 0, 0]
  ++ List.replicate 20 0 ++ [232, 3, 0, 0] ++ [24, 252, 255, 255]
  ++ List.replicate 954 0
  ++ List.replicate 120 0
  ++ [0, 0, 128, 63] ++ [0, 0, 128, 63] ++ [0, 0, 128, 63]
  ++ List.replicate 16 0

/-- `goodFile` with the first magic byte corrupted (`'K'` ↦ `'L'`). -/
def badMagicFile : List Nat :=
  [76, 77, 68, 0, 1, 2, 1, 0, 0, 0, 28, 0, 0, 0, 148, 0, 0, 0]
  ++ List.replicate 20 0 ++ [46, 0, 0, 0] ++ [148, 0, 0, 0]
  ++ List.replicate 120 0
  ++ [0, 0, 128, 63] ++ [0, 0, 128, 63] ++ [0, 0, 128, 63]
  ++ List.replicate 16 0

/-- `goodFile` with the block's first position component set to
`20000.0f` (bit pattern `0x469C4000`), outside `[-10000, 10000]`. -/
def badPosFile : List Nat :=
  [75, 77, 68, 0, 1, 2, 1, 0, 0, 0, 28, 0, 0, 0, 148, 0, 0, 0]
  ++ List.replicate 20 0 ++ [46, 0, 0, 0] ++ [148, 0, 0, 0]
  ++ List.replicate 92 0 ++ [0, 64, 156, 70] ++ List.replicate 24 0
  ++ [0, 0, 128, 63] ++ [0, 0, 128, 63] ++ [0, 0, 128, 63]
  ++ List.replicate 16 0

/-- `goodFile` with the block's first scale component set to `0.0f`,
below the minimum `0.01f`. -/
def badSizeFile : List Nat :=
  [75, 77, 68, 0, 1, 2, 1, 0, 0, 0, 28, 0, 0, 0, 148, 0, 0, 0]
  ++ List.replicate 20 0 ++ [46, 0, 0, 0] ++ [148, 0, 0, 0]
  ++ List.replicate 120 0
  ++ [0, 0, 0, 0] ++ [0, 0, 128, 63] ++ [0, 0, 128, 63]
  ++ List.replicate 16 0

/-- `goodFile` with the table entry's `blockSize` set to 200, so that
`blockOffset + blockSize = 246` exceeds the 194-byte file. -/
def eofFile : List Nat :=
  [75, 77, 68, 0, 1, 2, 1, 0, 0, 0, 28, 0, 0, 0, 148, 0, 0, 0]
  ++ List.replicate 20 0 ++ [46, 0, 0, 0] ++ [200, 0, 0, 0]
  ++ List.replicate 120 0
  ++ [0, 0, 128, 63] ++ [0, 0, 128, 63] ++ [0, 0, 128, 63]
  ++ List.replicate 16 0

/-- The table entry of `eofFile`. -/
def eofEntry : ModelTable := ⟨List.replicate 20 0, 46, 200⟩

/-- An environment in which the very first filesystem query
(`std::filesystem::exists`) throws. -/
def envFsThrow : Env := ⟨none, some true, true, true, some true, none, false, []⟩

/-- An environment for a path that does not exist. -/
def envNotFound : Env := ⟨some false, some true, true, true, some true, none, false, []⟩

/-- An environment in which every preflight query returns normally and
an allocation inside the `try` block throws. -/
def envAllocThrow : Env :=
  ⟨some true, some true, true, true, some true, none, true, goodFile⟩

/-- A default-initialized header, as a caller would pass one in. -/
def hdrInit : ModelHeader := {}

/-! ### Helper lemmas -/

theorem byteAt_lt (d : List Nat) (i : Nat) : byteAt d i < 256 :=
  Nat.mod_lt _ (by omega)

theorem byteAt_set_ne (d : List Nat) (j v i : Nat) (h : i ≠ j) :
    byteAt (d.set j v) i = byteAt d i := by
  unfold byteAt List.getD
  rw [List.get?_set_ne v d (by omega)]

theorem u32At_agree (d d' : List Nat) (i : Nat)
    (h : ∀ k, k < 4 → byteAt d' (i + k) = byteAt d (i + k)) :
    u32At d' i = u32At d i := by
  have h0 : byteAt d' i = byteAt d i := by simpa using h 0 (by omega)
  have h1 := h 1 (by omega)
  have h2 := h 2 (by omega)
  have h3 := h 3 (by omega)
  unfold u32At
  rw [h0, h1, h2, h3]

theorem f32At_agree (d d' : List Nat) (i : Nat)
    (h : ∀ k, k < 4 → byteAt d' (i + k) = byteAt d (i + k)) :
    f32At d' i = f32At d i := by
  unfold f32At
  rw [u32At_agree d d' i h]

theorem bytesAt_agree (d d' : List Nat) (i n : Nat)
    (h : ∀ k, k < n → byteAt d' (i + k) = byteAt d (i + k)) :
    bytesAt d' i n = bytesAt d i n := by
  unfold bytesAt
  apply List.map_congr_left
  intro k hk
  exact h k (List.mem_range.mp hk)

theorem readTableEntry_agree (d d' : List Nat) (hlen : d'.length = d.length)
    (hag : ∀ i, 10 ≤ i → byteAt d' i = byteAt d i) (i : Nat) (hi : 10 ≤ i) :
    readTableEntry d' i = readTableEntry d i := by
  unfold readTableEntry tableEntryAt
  rw [hlen,
    bytesAt_agree d d' i 20 (fun k _ => hag (i + k) (by omega)),
    u32At_agree d d' (i + 20) (fun k _ => hag (i + 20 + k) (by omega)),
    u32At_agree d d' (i + 24) (fun k _ => hag (i + 24 + k) (by omega))]

theorem decodeTablesAux_agree (d d' : List Nat) (hlen : d'.length = d.length)
    (hag : ∀ i, 10 ≤ i → byteAt d' i = byteAt d i) :
    ∀ k i, 10 ≤ i → decodeTablesAux d' k i = decodeTablesAux d k i := by
  intro k
  induction k with
  | zero => intro i _; rfl
  | succ k ih =>
    intro i hi
    unfold decodeTablesAux
    rw [readTableEntry_agree d d' hlen hag i hi,
      ih (i + CORRECT_MODEL_TABLE_SIZE) (by unfold CORRECT_MODEL_TABLE_SIZE; omega)]

theorem decodeTables_agree (d d' : List Nat) (hlen : d'.length = d.length)
    (hag : ∀ i, 10 ≤ i → byteAt d' i = byteAt d i) (i stop : Nat) (hi : 10 ≤ i) :
    decodeTables d' i stop = decodeTables d i stop := by
  unfold decodeTables
  exact decodeTablesAux_agree d d' hlen hag _ i hi

theorem blockCheck_agree (d d' : List Nat) (t : ModelTable)
    (hlen : d'.length = d.length)
    (hag : ∀ i, (t.blockOffset + 92 ≤ i ∧ i < t.blockOffset + 104) ∨
        (t.blockOffset + 120 ≤ i ∧ i < t.blockOffset + 148) →
        byteAt d' i = byteAt d i) :
    blockCheck d' t = blockCheck d t := by
  have p92 := f32At_agree d d' (t.blockOffset + 92)
    (fun k hk => hag _ (Or.inl (by omega)))
  have p96 := f32At_agree d d' (t.blockOffset + 96)
    (fun k hk => hag _ (Or.inl (by omega)))
  have p100 := f32At_agree d d' (t.blockOffset + 100)
    (fun k hk => hag _ (Or.inl (by omega)))
  have s120 := f32At_agree d d' (t.blockOffset + 120)
    (fun k hk => hag _ (Or.inr (by omega)))
  have s124 := f32At_agree d d' (t.blockOffset + 124)
    (fun k hk => hag _ (Or.inr (by omega)))
  have s128 := f32At_agree d d' (t.blockOffset + 128)
    (fun k hk => hag _ (Or.inr (by omega)))
  have v136 := u32At_agree d d' (t.blockOffset + 136)
    (fun k hk => hag _ (Or.inr (by omega)))
  have v144 := u32At_agree d d' (t.blockOffset + 144)
    (fun k hk => hag _ (Or.inr (by omega)))
  unfold blockCheck
  simp only []
  rw [hlen, p92, p96, p100, s120, s124, s128, v136, v144]

theorem decodeBlocks_kind_agree (d d' : List Nat) (ts : List ModelTable)
    (h : ∀ t ∈ ts, blockCheck d' t = blockCheck d t) :
    blocksKind (decodeBlocks d' ts) = blocksKind (decodeBlocks d ts) := by
  induction ts with
  | nil => rfl
  | cons t ts ih =>
    have ht := h t (List.mem_cons_self t ts)
    have hrest := ih (fun x hx => h x (List.mem_cons_of_mem t hx))
    unfold decodeBlocks
    rw [ht]
    cases blockCheck d t with
    | kErr r => rfl
    | kOob => rfl
    | kOk =>
      cases hb' : decodeBlocks d' ts <;> cases hb : decodeBlocks d ts <;>
        rw [hb', hb] at hrest <;> simp_all [blocksKind]

theorem parseHeader_agree (d d' : List Nat) (hlen : d'.length = d.length)
    (hag : ∀ i, i < 5 ∨ 10 ≤ i → byteAt d' i = byteAt d i)
    (hcnt : u32At d' 6 > MAX_MODEL_COUNT ↔ u32At d 6 > MAX_MODEL_COUNT) :
    parseHeader d' = (parseHeader d).map
      (fun h =>
        { h with
          scaleFactor := (if byteAt d' 5 > 8 then 0 else byteAt d' 5),
          modelCount := u32At d' 6 }) := by
  have e0 := u32At_agree d d' 0 (fun k hk => by simpa using hag k (by omega))
  have e4 : byteAt d' 4 = byteAt d 4 := hag 4 (by omega)
  have e10 := u32At_agree d d' 10 (fun k hk => hag (10 + k) (by omega))
  have e14 := u32At_agree d d' 14 (fun k hk => hag (14 + k) (by omega))
  unfold parseHeader
  simp only [e0, e4, e10, e14, hcnt, hlen]
  split <;> try rfl
  split <;> try rfl
  split <;> try rfl
  split <;> try rfl
  split <;> try rfl
  split <;> try rfl
  split <;> try rfl
  split <;> rfl

theorem retKind_agree (d d' : List Nat) (hlen : d'.length = d.length)
    (hag : ∀ i, i < 5 ∨ 10 ≤ i → byteAt d' i = byteAt d i)
    (hcnt : u32At d' 6 > MAX_MODEL_COUNT ↔ u32At d 6 > MAX_MODEL_COUNT) :
    retKind (importKMDBytes d') = retKind (importKMDBytes d) := by
  have hag10 : ∀ i, 10 ≤ i → byteAt d' i = byteAt d i := fun i hi => hag i (Or.inr hi)
  unfold importKMDBytes
  rw [parseHeader_agree d d' hlen hag hcnt]
  cases hp : parseHeader d with
  | error r => rfl
  | ok h =>
    simp only [Except.map]
    rw [decodeTables_agree d d' hlen hag10 CORRECT_MODEL_HEADER_SIZE _
      (by unfold CORRECT_MODEL_HEADER_SIZE; omega)]
    cases hdt : decodeTables d CORRECT_MODEL_HEADER_SIZE
        (CORRECT_MODEL_HEADER_SIZE + h.modelTablesSize) with
    | none => rfl
    | some ts =>
      have hk := decodeBlocks_kind_agree d d' ts
        (fun t _ => blockCheck_agree d d' t hlen
          (fun i hi => hag10 i (by omega)))
      cases hb' : decodeBlocks d' ts <;> cases hb : decodeBlocks d ts <;>
        rw [hb', hb] at hk <;> simp_all [blocksKind, retKind]

theorem decodeTablesAux_complete (d : List Nat) :
    ∀ k i, i + 28 * k ≤ d.length →
      decodeTablesAux d k i =
        some ((List.range k).map fun j => tableEntryAt d (i + 28 * j)) := by
  intro k
  induction k with
  | zero => intro i _; rfl
  | succ k ih =>
    intro i hle
    unfold decodeTablesAux readTableEntry CORRECT_MODEL_TABLE_SIZE
    have hcond : i + 28 ≤ d.length := by omega
    have hih := ih (i + 28) (by omega)
    rw [if_pos hcond, hih]
    show some (tableEntryAt d i ::
        (List.range k).map fun j => tableEntryAt d (i + 28 + 28 * j))
      = some ((List.range (k + 1)).map fun j => tableEntryAt d (i + 28 * j))
    rw [List.range_succ_eq_map, List.map_cons, List.map_map]
    congr 1
    congr 1
    apply List.map_congr_left
    intro a _
    show tableEntryAt d (i + 28 + 28 * a) = tableEntryAt d (i + 28 * (a + 1))
    congr 1
    omega

theorem decodeTablesAux_length (d : List Nat) :
    ∀ k i ts, decodeTablesAux d k i = some ts → ts.length = k := by
  intro k
  induction k with
  | zero =>
    intro i ts h
    unfold decodeTablesAux at h
    cases h
    rfl
  | succ k ih =>
    intro i ts h
    unfold decodeTablesAux at h
    cases hr : readTableEntry d i with
    | none => rw [hr] at h; cases h
    | some t =>
      rw [hr] at h
      cases haux : decodeTablesAux d k (i + CORRECT_MODEL_TABLE_SIZE) with
      | none => rw [haux] at h; cases h
      | some ts2 =>
        rw [haux] at h
        cases h
        simpa using ih (i + CORRECT_MODEL_TABLE_SIZE) ts2 haux

theorem decodeBlocks_complete (d : List Nat) (ts : List ModelTable)
    (h : ∀ t ∈ ts, blockCheck d t = .kOk) :
    decodeBlocks d ts = .bok (ts.map fun t => blockAt d t.blockOffset) := by
  induction ts with
  | nil => rfl
  | cons t ts ih =>
    unfold decodeBlocks
    rw [h t (List.mem_cons_self t ts),
      ih (fun x hx => h x (List.mem_cons_of_mem t hx))]
    rfl

theorem decodeBlocks_err (d : List Nat) :
    ∀ (ts : List ModelTable) (j : Nat) (hj : j < ts.length) (r : ImportResult),
      (∀ i (hi : i < ts.length), i < j → blockCheck d (ts.get ⟨i, hi⟩) = .kOk) →
      blockCheck d (ts.get ⟨j, hj⟩) = .kErr r →
      decodeBlocks d ts = .berr r := by
  intro ts
  induction ts with
  | nil => intro j hj; simp at hj
  | cons t ts ih =>
    intro j hj r hearly herr
    cases j with
    | zero =>
      unfold decodeBlocks
      rw [show blockCheck d t = .kErr r from herr]
    | succ j =>
      have ht : blockCheck d t = .kOk := hearly 0 (by omega) (by omega)
      unfold decodeBlocks
      rw [ht, ih j (by simpa using hj) r
        (fun i hi hlt => hearly (i + 1) (by simpa using hi) (by omega))
        herr]

theorem importKMDBytes_err_at (d : List Nat) (hdr : ModelHeader)
    (tables : List ModelTable) (j : Nat) (hj : j < tables.length)
    (r : ImportResult)
    (hh : parseHeader d = .ok hdr)
    (ht : decodeTables d CORRECT_MODEL_HEADER_SIZE
      (CORRECT_MODEL_HEADER_SIZE + hdr.modelTablesSize) = some tables)
    (hearly : ∀ i (hi : i < tables.length), i < j →
      blockCheck d (tables.get ⟨i, hi⟩) = .kOk)
    (herr : blockCheck d (tables.get ⟨j, hj⟩) = .kErr r) :
    importKMDBytes d = .err r := by
  simp only [importKMDBytes, hh, ht, decodeBlocks_err d tables j hj r hearly herr]

theorem entryOK_blockCheck (d : List Nat) (i : Nat) (h : entryOK d i = true) :
    blockCheck d (tableEntryAt d i) = .kOk := by
  unfold entryOK at h
  simp only [Bool.and_eq_true, decide_eq_true_eq, Bool.not_eq_true'] at h
  obtain ⟨⟨⟨⟨⟨⟨⟨⟨⟨⟨⟨⟨⟨⟨⟨h1, h2⟩, h3⟩, h4⟩, hp92a⟩, hp92b⟩, hp96a⟩, hp96b⟩,
    hp100a⟩, hp100b⟩, hs120a⟩, hs120b⟩, hs124a⟩, hs124b⟩, hs128a⟩, hs128b⟩ := h
  have hb1 : ¬ ((u32At d (i + 20) + u32At d (i + 24)) % 4294967296 > d.length) :=
    Nat.not_lt.mpr (le_trans (Nat.mod_le _ _) h1)
  unfold blockCheck tableEntryAt VERTICE_DATA_OFFSET
  unfold VERTICE_DATA_OFFSET at h2
  simp only []
  rw [if_neg hb1]
  rw [if_neg (by omega)]
  rw [if_neg (by simp [hp92a, hp92b, hp96a, hp96b, hp100a, hp100b])]
  rw [if_neg (by omega)]
  rw [if_neg (by simp [hs120a, hs120b, hs124a, hs124b, hs128a, hs128b])]
  rw [if_neg (by omega)]
  rw [if_neg (by omega)]
  rw [if_neg (by omega)]
  rw [if_neg (by omega)]
  rw [if_neg (by omega)]

theorem parseHeader_scaleFactor (d : List Nat) (hdr : ModelHeader)
    (h : parseHeader d = .ok hdr) :
    hdr.scaleFactor = (if byteAt d 5 > 8 then 0 else byteAt d 5) := by
  unfold parseHeader at h
  repeat' split at h
  all_goals first
    | exact Except.noConfusion h
    | (cases h; dsimp only []; split <;> omega)

theorem importKMDBytes_ok_inv (d : List Nat) (h : ModelHeader)
    (ts : List ModelTable) (bs : List ModelBlock)
    (hok : importKMDBytes d = .ok h ts bs) :
    parseHeader d = .ok h
    ∧ decodeTables d CORRECT_MODEL_HEADER_SIZE
        (CORRECT_MODEL_HEADER_SIZE + h.modelTablesSize) = some ts
    ∧ decodeBlocks d ts = .bok bs := by
  unfold importKMDBytes at hok
  cases hp : parseHeader d with
  | error r => rw [hp] at hok; simp at hok
  | ok hdr =>
    rw [hp] at hok
    simp only [] at hok
    cases hdt : decodeTables d CORRECT_MODEL_HEADER_SIZE
        (CORRECT_MODEL_HEADER_SIZE + hdr.modelTablesSize) with
    | none => rw [hdt] at hok; simp at hok
    | some tables =>
      rw [hdt] at hok
      simp only [] at hok
      cases hdb : decodeBlocks d tables with
      | bok blocks =>
        rw [hdb] at hok
        simp only [DecodeOut.ok.injEq] at hok
        obtain ⟨h1, h2, h3⟩ := hok
        subst h1
        subst h2
        subst h3
        exact ⟨rfl, hdt, hdb⟩
      | berr r => rw [hdb] at hok; simp at hok
      | boob => rw [hdb] at hok; simp at hok

/-! ### Claim theorems -/

/-- Claim C1 (code bug): the claim says the decode of `ImportKMD` never
reads or writes outside its buffers for any file passing preflight, for
every value of the header sizes and per-block fields.  The code has no
check of `modelTablesSize` against the file size: on `c1File` (a
194-byte file passing every preflight and header check, with
`modelTablesSize = 196`) the table loop reads bytes `186 .. 213` of the
194-byte buffer.  The model records this out-of-bounds access as the
distinguished `oob` outcome. -/
theorem c1_oob_table_read : importKMDBytes c1File = .oob := by decide

/-- Claim C2 (counterexample): the claim says `ImportKMD` returns a
tagged result for every input, including paths on which a filesystem
query fails.  But `exists`, `is_regular_file` and `status` are called
outside the `try` block: in the environment where `exists` throws, the
exception escapes the function. -/
theorem c2_counterexample : ImportKMD envFsThrow hdrInit [] [] = .escape := rfl

/-- Claim C2 (amended): if none of the three preflight filesystem
queries (`exists`, `is_regular_file`, `status`) throws, then no
exception escapes `ImportKMD`; and every exception raised inside the
`try` block (open, read, allocation, decode) is caught and mapped to
`RESULT_UNKNOWN_READ_ERROR`, leaving the output parameters untouched. -/
theorem c2_no_escape (env : Env) (hdr0 : ModelHeader) (tbl0 : List ModelTable)
    (blk0 : List ModelBlock)
    (hex : env.fsExists ≠ none) (hreg : env.fsIsRegular ≠ none)
    (hcr : env.canRead ≠ none) :
    ImportKMD env hdr0 tbl0 blk0 ≠ .escape
    ∧ (env.fsExists = some true → env.fsIsRegular = some true →
       env.hasExt = true → env.extIsKmd = true → env.canRead = some true →
       env.tryThrows = true →
       ImportKMD env hdr0 tbl0 blk0
         = .ret .RESULT_UNKNOWN_READ_ERROR hdr0 tbl0 blk0) := by
  obtain ⟨fe, fr, he, hk, cr, oe, tt, ct⟩ := env
  constructor
  · cases fe with
    | none => exact absurd rfl hex
    | some b1 =>
      cases fr with
      | none => exact absurd rfl hreg
      | some b2 =>
        cases cr with
        | none => exact absurd rfl hcr
        | some b3 =>
          cases b1 <;> cases b2 <;> cases b3 <;> cases he <;> cases hk <;>
            cases tt <;> cases oe <;> cases himp : importKMDBytes ct <;>
            simp [ImportKMD, himp] <;> split <;> simp
  · intro h1 h2 h3 h4 h5 h6
    have e1 : fe = some true := h1
    have e2 : fr = some true := h2
    have e3 : he = true := h3
    have e4 : hk = true := h4
    have e5 : cr = some true := h5
    have e6 : tt = true := h6
    subst e1
    subst e2
    subst e3
    subst e4
    subst e5
    subst e6
    rfl

/-- Claim C2 (witness for the amended theorem): a concrete missing file
returns normally, and a concrete environment in which an allocation
inside the `try` block throws returns `RESULT_UNKNOWN_READ_ERROR` with
the outputs untouched. -/
theorem c2_witness :
    ImportKMD envNotFound hdrInit [] [] ≠ .escape
    ∧ ImportKMD envAllocThrow hdrInit [] []
        = .ret .RESULT_UNKNOWN_READ_ERROR hdrInit [] [] :=
  ⟨(c2_no_escape envNotFound hdrInit [] [] (by decide) (by decide) (by decide)).1,
   (c2_no_escape envAllocThrow hdrInit [] [] (by decide) (by decide) (by decide)).2
     rfl rfl rfl rfl rfl rfl⟩

/-- Claim C3: `ImportKMD` is atomic on failure: whenever a call returns
normally with a result other than `RESULT_SUCCESS`, the three output
parameters hold exactly the values they held at the call. -/
theorem c3_failure_atomic (env : Env) (hdr0 : ModelHeader)
    (tbl0 : List ModelTable) (blk0 : List ModelBlock) (r : ImportResult)
    (h : ModelHeader) (t : List ModelTable) (b : List ModelBlock)
    (hret : ImportKMD env hdr0 tbl0 blk0 = .ret r h t b)
    (hfail : r ≠ .RESULT_SUCCESS) :
    h = hdr0 ∧ t = tbl0 ∧ b = blk0 := by
  obtain ⟨fe, fr, he, hk, cr, oe, tt, ct⟩ := env
  unfold ImportKMD at hret
  cases fe with
  | none => exact CallOutcome.noConfusion hret
  | some b1 =>
    cases b1 with
    | false =>
      injection hret with hr hh ht hb
      exact ⟨hh.symm, ht.symm, hb.symm⟩
    | true =>
      cases fr with
      | none => exact CallOutcome.noConfusion hret
      | some b2 =>
        simp only [] at hret
        by_cases hcond : (!b2 || !he || !hk) = true
        · rw [if_pos hcond] at hret
          injection hret with hr hh ht hb
          exact ⟨hh.symm, ht.symm, hb.symm⟩
        · rw [if_neg hcond] at hret
          cases cr with
          | none => exact CallOutcome.noConfusion hret
          | some b3 =>
            cases b3 with
            | false =>
              injection hret with hr hh ht hb
              exact ⟨hh.symm, ht.symm, hb.symm⟩
            | true =>
              cases tt with
              | true =>
                injection hret with hr hh ht hb
                exact ⟨hh.symm, ht.symm, hb.symm⟩
              | false =>
                cases oe with
                | some e =>
                  simp only [] at hret
                  by_cases he2 : e = EBUSY ∨ e = ETXTBSY
                  · rw [if_pos he2] at hret
                    injection hret with hr hh ht hb
                    exact ⟨hh.symm, ht.symm, hb.symm⟩
                  · rw [if_neg he2] at hret
                    injection hret with hr hh ht hb
                    exact ⟨hh.symm, ht.symm, hb.symm⟩
                | none =>
                  cases himp : importKMDBytes ct with
                  | ok h2 t2 b2 =>
                    rw [himp] at hret
                    injection hret with hr hh ht hb
                    exact absurd hr.symm hfail
                  | err r2 =>
                    rw [himp] at hret
                    injection hret with hr hh ht hb
                    exact ⟨hh.symm, ht.symm, hb.symm⟩
                  | oob =>
                    rw [himp] at hret
                    exact CallOutcome.noConfusion hret

/-- Claim C3 (witness): instantiated at a missing file. -/
theorem c3_witness :
    ImportKMD envNotFound hdrInit [] [] = .ret .RESULT_FILE_NOT_FOUND hdrInit [] []
    ∧ (hdrInit = hdrInit ∧ ([] : List ModelTable) = [] ∧ ([] : List ModelBlock) = []) :=
  ⟨rfl, c3_failure_atomic envNotFound hdrInit [] [] .RESULT_FILE_NOT_FOUND
    hdrInit [] [] rfl (by decide)⟩

/-- Claim C4 (counterexample): the claim says that whenever a table
entry's exact sum `blockOffset + blockSize` exceeds the file length, the
decode returns `RESULT_UNEXPECTED_EOF` and no blocks.  The code adds the
two fields in u32 arithmetic, which wraps modulo 2^32: on `c4File`
(entry with `blockOffset = 1000`, `blockSize = 2^32 - 1000`, file length
1148) the wrapped sum is 0, the check passes, and the import succeeds,
returning the block. -/
theorem c4_counterexample :
    retKind (importKMDBytes c4File) = some .RESULT_SUCCESS
    ∧ ((tablesOf (importKMDBytes c4File)).any fun t =>
        decide (c4File.length < t.blockOffset + t.blockSize)) = true
    ∧ (blocksOf (importKMDBytes c4File)).length = 1 := by decide

/-- Claim C4 (amended): if some table entry's `blockOffset + blockSize`
computed in 32-bit wrap-around arithmetic (as the code's u32 addition
does) exceeds the file length, and every earlier entry's block passes
its checks, then the import returns `RESULT_UNEXPECTED_EOF` and no
model block appears in the output. -/
theorem c4_wrapped_eof (d : List Nat) (hdr : ModelHeader)
    (tables : List ModelTable) (j : Nat) (hj : j < tables.length)
    (hh : parseHeader d = .ok hdr)
    (ht : decodeTables d CORRECT_MODEL_HEADER_SIZE
      (CORRECT_MODEL_HEADER_SIZE + hdr.modelTablesSize) = some tables)
    (hearly : ∀ i (hi : i < tables.length), i < j →
      blockCheck d (tables.get ⟨i, hi⟩) = .kOk)
    (hwrap : ((tables.get ⟨j, hj⟩).blockOffset + (tables.get ⟨j, hj⟩).blockSize)
      % 4294967296 > d.length) :
    importKMDBytes d = .err .RESULT_UNEXPECTED_EOF
    ∧ blocksOf (importKMDBytes d) = [] := by
  have herr : blockCheck d (tables.get ⟨j, hj⟩) = .kErr .RESULT_UNEXPECTED_EOF := by
    unfold blockCheck
    rw [if_pos hwrap]
  have hres := importKMDBytes_err_at d hdr tables j hj _ hh ht hearly herr
  refine ⟨hres, ?_⟩
  rw [hres]
  rfl

/-- Claim C4 (witness for the amended theorem): instantiated at
`eofFile`, whose single entry declares `blockOffset + blockSize = 246`
against a 194-byte file (no wrapping involved). -/
theorem c4_witness :
    importKMDBytes eofFile = .err .RESULT_UNEXPECTED_EOF
    ∧ blocksOf (importKMDBytes eofFile) = [] :=
  c4_wrapped_eof eofFile goodHdr [eofEntry] 0 (by decide) (by decide) (by decide)
    (fun i hi hlt => absurd hlt (Nat.not_lt_zero i)) (by decide)

/-- Claim C5: header validation checks the magic first: any file passing
the preflight size envelope whose first four bytes differ from
`'K','M','D','\0'` in at least one byte is rejected with
`RESULT_INVALID_MAGIC`, regardless of every other byte of the file. -/
theorem c5_invalid_magic_first (d : List Nat)
    (hmin : MIN_TOTAL_SIZE ≤ d.length) (hmax : d.length ≤ MAX_TOTAL_SIZE)
    (hbad : ¬(byteAt d 0 = 75 ∧ byteAt d 1 = 77 ∧ byteAt d 2 = 68 ∧ byteAt d 3 = 0)) :
    importKMDBytes d = .err .RESULT_INVALID_MAGIC := by
  have hm : u32At d 0 ≠ KMD_MAGIC := by
    unfold u32At KMD_MAGIC
    have b0 := byteAt_lt d 0
    have b1 := byteAt_lt d 1
    have b2 := byteAt_lt d 2
    have b3 := byteAt_lt d 3
    intro he
    simp only [Nat.zero_add] at he
    exact hbad ⟨by omega, by omega, by omega, by omega⟩
  have h194 : (194 : Nat) ≤ d.length := by
    unfold MIN_TOTAL_SIZE CORRECT_MODEL_HEADER_SIZE CORRECT_MODEL_TABLE_SIZE
      VERTICE_DATA_OFFSET at hmin
    omega
  have h0 : ¬ (d.length = 0) := by omega
  have h1 : ¬ (d.length < MIN_TOTAL_SIZE) := Nat.not_lt.mpr hmin
  have h2 : ¬ (d.length > MAX_TOTAL_SIZE) := Nat.not_lt.mpr hmax
  unfold importKMDBytes parseHeader
  rw [if_neg h0, if_neg h1, if_neg h2, if_pos hm]

/-- Claim C5 (witness): instantiated at `badMagicFile`, whose first byte
is corrupted from `'K'` to `'L'`. -/
theorem c5_witness :
    importKMDBytes badMagicFile = .err .RESULT_INVALID_MAGIC :=
  c5_invalid_magic_first badMagicFile (by decide) (by decide) (by decide)

/-- Claim C6: an out-of-range scale-factor selector never causes
failure: on every successful import the returned header's `scaleFactor`
is the selector byte clamped (values above 8 become 0, values 0..8 pass
through unchanged), and rewriting the selector byte (offset 5) of any
file never changes the result kind of the import. -/
theorem c6_scale_selector (d : List Nat) (v : Nat) :
    (∀ (h : ModelHeader) (ts : List ModelTable) (bs : List ModelBlock),
        importKMDBytes d = .ok h ts bs →
        h.scaleFactor = (if byteAt d 5 > 8 then 0 else byteAt d 5))
    ∧ retKind (importKMDBytes (d.set 5 v)) = retKind (importKMDBytes d) := by
  constructor
  · intro h ts bs hok
    exact parseHeader_scaleFactor d h (importKMDBytes_ok_inv d h ts bs hok).1
  · apply retKind_agree
    · exact List.length_set d 5 v
    · intro i hi
      exact byteAt_set_ne d 5 v i (by omega)
    · have hu : u32At (d.set 5 v) 6 = u32At d 6 :=
        u32At_agree d (d.set 5 v) 6 (fun k hk => byteAt_set_ne d 5 v (6 + k) (by omega))
      rw [hu]

/-- Claim C6 (witness): instantiated at `goodFile` (selector byte 2,
returned unchanged) and the selector rewritten to 9. -/
theorem c6_witness :
    goodHdr.scaleFactor = (if byteAt goodFile 5 > 8 then 0 else byteAt goodFile 5)
    ∧ retKind (importKMDBytes (goodFile.set 5 9)) = retKind (importKMDBytes goodFile) :=
  ⟨(c6_scale_selector goodFile 9).1 goodHdr [goodEntry] [blockAt goodFile 46] (by decide),
   (c6_scale_selector goodFile 9).2⟩

/-- Claim C7: inclusive position bounds.  Given that the (wrapped) u32
bounds check passed and the position bytes lie inside the file, a block
is rejected with `RESULT_INVALID_MODEL_POSITION` iff some decoded
position component is strictly below `-10000.0f` or strictly above
`10000.0f` under IEEE comparison (a component exactly equal to a bound,
or NaN, is accepted); and when the first failing block fails the
position check, the whole import fails with that kind and returns no
models. -/
theorem c7_position_bounds (d : List Nat) (t : ModelTable)
    (h1 : (t.blockOffset + t.blockSize) % 4294967296 ≤ d.length)
    (h2 : t.blockOffset + 104 ≤ d.length) :
    (blockCheck d t = .kErr .RESULT_INVALID_MODEL_POSITION ↔
      (f32lt (f32At d (t.blockOffset + 92)) MIN_POS
       || f32gt (f32At d (t.blockOffset + 92)) MAX_POS
       || f32lt (f32At d (t.blockOffset + 96)) MIN_POS
       || f32gt (f32At d (t.blockOffset + 96)) MAX_POS
       || f32lt (f32At d (t.blockOffset + 100)) MIN_POS
       || f32gt (f32At d (t.blockOffset + 100)) MAX_POS) = true)
    ∧ (∀ (hdr : ModelHeader) (tables : List ModelTable) (j : Nat)
        (hj : j < tables.length),
        parseHeader d = .ok hdr →
        decodeTables d CORRECT_MODEL_HEADER_SIZE
          (CORRECT_MODEL_HEADER_SIZE + hdr.modelTablesSize) = some tables →
        (∀ i (hi : i < tables.length), i < j →
          blockCheck d (tables.get ⟨i, hi⟩) = .kOk) →
        blockCheck d (tables.get ⟨j, hj⟩) = .kErr .RESULT_INVALID_MODEL_POSITION →
        importKMDBytes d = .err .RESULT_INVALID_MODEL_POSITION
          ∧ blocksOf (importKMDBytes d) = []) := by
  constructor
  · have g1 : ¬ ((t.blockOffset + t.blockSize) % 4294967296 > d.length) :=
      Nat.not_lt.mpr h1
    have g2 : ¬ (d.length < t.blockOffset + 104) := Nat.not_lt.mpr h2
    unfold blockCheck
    simp only []
    rw [if_neg g1, if_neg g2]
    by_cases hb : (f32lt (f32At d (t.blockOffset + 92)) MIN_POS
       || f32gt (f32At d (t.blockOffset + 92)) MAX_POS
       || f32lt (f32At d (t.blockOffset + 96)) MIN_POS
       || f32gt (f32At d (t.blockOffset + 96)) MAX_POS
       || f32lt (f32At d (t.blockOffset + 100)) MIN_POS
       || f32gt (f32At d (t.blockOffset + 100)) MAX_POS) = true
    · rw [if_pos hb]
      simp [hb]
    · rw [if_neg hb]
      refine iff_of_false ?_ hb
      (repeat' split) <;> decide
  · intro hdr tables j hj hh ht hearly herr
    have hres := importKMDBytes_err_at d hdr tables j hj _ hh ht hearly herr
    refine ⟨hres, ?_⟩
    rw [hres]
    rfl

/-- Claim C7 (witness): instantiated at `badPosFile`, whose single block
has first position component `20000.0f`. -/
theorem c7_witness :
    (blockCheck badPosFile goodEntry = .kErr .RESULT_INVALID_MODEL_POSITION ↔
      (f32lt (f32At badPosFile (goodEntry.blockOffset + 92)) MIN_POS
       || f32gt (f32At badPosFile (goodEntry.blockOffset + 92)) MAX_POS
       || f32lt (f32At badPosFile (goodEntry.blockOffset + 96)) MIN_POS
       || f32gt (f32At badPosFile (goodEntry.blockOffset + 96)) MAX_POS
       || f32lt (f32At badPosFile (goodEntry.blockOffset + 100)) MIN_POS
       || f32gt (f32At badPosFile (goodEntry.blockOffset + 100)) MAX_POS) = true)
    ∧ importKMDBytes badPosFile = .err .RESULT_INVALID_MODEL_POSITION
    ∧ blocksOf (importKMDBytes badPosFile) = [] := by
  have h := c7_position_bounds badPosFile goodEntry (by decide) (by decide)
  exact ⟨h.1, h.2 goodHdr [goodEntry] 0 (by decide) (by decide) (by decide)
    (fun i hi hlt => absurd hlt (Nat.not_lt_zero i)) (by decide)⟩

/-- Claim C8: inclusive scale bounds.  Given that the earlier checks of
the same block passed (wrapped u32 bounds check, reads in bounds,
position in range), a block is rejected with `RESULT_INVALID_MODEL_SIZE`
iff some decoded scale component is strictly below `0.01f` or strictly
above `10000.0f` under IEEE comparison (exactly `0.01f` is accepted);
and the rotation quaternion is never range-checked: changing the 16
rotation bytes of a block never changes the outcome of its checks. -/
theorem c8_size_bounds (d : List Nat) (t : ModelTable)
    (h1 : (t.blockOffset + t.blockSize) % 4294967296 ≤ d.length)
    (h2 : t.blockOffset + 132 ≤ d.length)
    (hpos : (f32lt (f32At d (t.blockOffset + 92)) MIN_POS
       || f32gt (f32At d (t.blockOffset + 92)) MAX_POS
       || f32lt (f32At d (t.blockOffset + 96)) MIN_POS
       || f32gt (f32At d (t.blockOffset + 96)) MAX_POS
       || f32lt (f32At d (t.blockOffset + 100)) MIN_POS
       || f32gt (f32At d (t.blockOffset + 100)) MAX_POS) = false) :
    (blockCheck d t = .kErr .RESULT_INVALID_MODEL_SIZE ↔
      (f32lt (f32At d (t.blockOffset + 120)) MIN_SIZE
       || f32gt (f32At d (t.blockOffset + 120)) MAX_SIZE
       || f32lt (f32At d (t.blockOffset + 124)) MIN_SIZE
       || f32gt (f32At d (t.blockOffset + 124)) MAX_SIZE
       || f32lt (f32At d (t.blockOffset + 128)) MIN_SIZE
       || f32gt (f32At d (t.blockOffset + 128)) MAX_SIZE) = true)
    ∧ (∀ d' : List Nat, d'.length = d.length →
        (∀ i, i < t.blockOffset + 104 ∨ t.blockOffset + 120 ≤ i →
          byteAt d' i = byteAt d i) →
        blockCheck d' t = blockCheck d t) := by
  constructor
  · have g1 : ¬ ((t.blockOffset + t.blockSize) % 4294967296 > d.length) :=
      Nat.not_lt.mpr h1
    have g2 : ¬ (d.length < t.blockOffset + 104) := Nat.not_lt.mpr (by omega)
    have g3 : ¬ (d.length < t.blockOffset + 132) := Nat.not_lt.mpr h2
    have g4 : ¬ ((f32lt (f32At d (t.blockOffset + 92)) MIN_POS
       || f32gt (f32At d (t.blockOffset + 92)) MAX_POS
       || f32lt (f32At d (t.blockOffset + 96)) MIN_POS
       || f32gt (f32At d (t.blockOffset + 96)) MAX_POS
       || f32lt (f32At d (t.blockOffset + 100)) MIN_POS
       || f32gt (f32At d (t.blockOffset + 100)) MAX_POS) = true) := by
      simp [hpos]
    unfold blockCheck
    simp only []
    rw [if_neg g1, if_neg g2, if_neg g4, if_neg g3]
    by_cases hb : (f32lt (f32At d (t.blockOffset + 120)) MIN_SIZE
       || f32gt (f32At d (t.blockOffset + 120)) MAX_SIZE
       || f32lt (f32At d (t.blockOffset + 124)) MIN_SIZE
       || f32gt (f32At d (t.blockOffset + 124)) MAX_SIZE
       || f32lt (f32At d (t.blockOffset + 128)) MIN_SIZE
       || f32gt (f32At d (t.blockOffset + 128)) MAX_SIZE) = true
    · rw [if_pos hb]
      simp [hb]
    · rw [if_neg hb]
      refine iff_of_false ?_ hb
      (repeat' split) <;> decide
  · intro d' hlen hag
    exact blockCheck_agree d d' t hlen (fun i hi => hag i (by omega))

/-- Claim C8 (witness): instantiated at `badSizeFile` (first scale
component `0.0f`, rejected) and a copy of it with one rotation byte
rewritten (same outcome). -/
theorem c8_witness :
    (blockCheck badSizeFile goodEntry = .kErr .RESULT_INVALID_MODEL_SIZE ↔
      (f32lt (f32At badSizeFile (goodEntry.blockOffset + 120)) MIN_SIZE
       || f32gt (f32At badSizeFile (goodEntry.blockOffset + 120)) MAX_SIZE
       || f32lt (f32At badSizeFile (goodEntry.blockOffset + 124)) MIN_SIZE
       || f32gt (f32At badSizeFile (goodEntry.blockOffset + 124)) MAX_SIZE
       || f32lt (f32At badSizeFile (goodEntry.blockOffset + 128)) MIN_SIZE
       || f32gt (f32At badSizeFile (goodEntry.blockOffset + 128)) MAX_SIZE) = true)
    ∧ blockCheck (badSizeFile.set 150 99) goodEntry = blockCheck badSizeFile goodEntry := by
  have h := c8_size_bounds badSizeFile goodEntry (by decide) (by decide) (by decide)
  exact ⟨h.1, h.2 (badSizeFile.set 150 99) (by simp)
    (fun i hi => byteAt_set_ne badSizeFile 150 99 i
      (by have e : goodEntry.blockOffset = 46 := rfl; omega))⟩

/-- Claim C9: for every well-formed file — magic, version, model count,
region sizes consistent with `N` table entries, the table region inside
the file, and every entry within bounds and within the position/scale
ranges — the import succeeds, the returned table and block lists both
have length `N` in file order, and the `j`-th block is decoded at the
offset named by the `j`-th table entry. -/
theorem c9_wellformed_success (d : List Nat) (N : Nat)
    (hmin : MIN_TOTAL_SIZE ≤ d.length) (hmax : d.length ≤ MAX_TOTAL_SIZE)
    (hmagic : byteAt d 0 = 75 ∧ byteAt d 1 = 77 ∧ byteAt d 2 = 68 ∧ byteAt d 3 = 0)
    (hver : byteAt d 4 = KMD_VERSION)
    (hcnt : u32At d 6 ≤ MAX_MODEL_COUNT)
    (hT : u32At d 10 = 28 * N)
    (hN1 : 1 ≤ N) (hN2 : 28 * N ≤ MAX_MODEL_TABLE_SIZE)
    (hB1 : VERTICE_DATA_OFFSET ≤ u32At d 14) (hB2 : u32At d 14 ≤ MAX_MODEL_BLOCK_SIZE)
    (htb : CORRECT_MODEL_HEADER_SIZE + 28 * N ≤ d.length)
    (hentries : ∀ j, j < N → entryOK d (CORRECT_MODEL_HEADER_SIZE + 28 * j) = true) :
    retKind (importKMDBytes d) = some .RESULT_SUCCESS
    ∧ (tablesOf (importKMDBytes d)).length = N
    ∧ (blocksOf (importKMDBytes d)).length = N
    ∧ ∀ j, j < N →
        (tablesOf (importKMDBytes d))[j]?
          = some (tableEntryAt d (CORRECT_MODEL_HEADER_SIZE + 28 * j))
        ∧ (blocksOf (importKMDBytes d))[j]?
          = some (blockAt d
              ((tableEntryAt d (CORRECT_MODEL_HEADER_SIZE + 28 * j)).blockOffset)) := by
  obtain ⟨m0, m1, m2, m3⟩ := hmagic
  have hm : u32At d 0 = KMD_MAGIC := by
    unfold u32At KMD_MAGIC
    simp only [Nat.zero_add]
    omega
  have hph : parseHeader d = .ok ⟨u32At d 0, byteAt d 4,
      (if byteAt d 5 > 8 then 0 else byteAt d 5), u32At d 6, u32At d 10, u32At d 14⟩ := by
    have g0 : ¬ (d.length = 0) := by
      have e : MIN_TOTAL_SIZE = 194 := rfl
      omega
    have g1 : ¬ (d.length < MIN_TOTAL_SIZE) := Nat.not_lt.mpr hmin
    have g2 : ¬ (d.length > MAX_TOTAL_SIZE) := Nat.not_lt.mpr hmax
    have g3 : ¬ (u32At d 0 ≠ KMD_MAGIC) := fun hne => hne hm
    have g4 : ¬ (byteAt d 4 ≠ KMD_VERSION) := fun hne => hne hver
    have g5 : ¬ (u32At d 6 > MAX_MODEL_COUNT) := Nat.not_lt.mpr hcnt
    have g6 : ¬ (u32At d 10 < CORRECT_MODEL_TABLE_SIZE
        ∨ u32At d 10 > MAX_MODEL_TABLE_SIZE) := by
      have e1 : CORRECT_MODEL_TABLE_SIZE = 28 := rfl
      have e2 : MAX_MODEL_TABLE_SIZE = 28672 := rfl
      omega
    have g7 : ¬ (u32At d 14 < VERTICE_DATA_OFFSET
        ∨ u32At d 14 > MAX_MODEL_BLOCK_SIZE) := by
      have e1 : VERTICE_DATA_OFFSET = 148 := rfl
      have e2 : MAX_MODEL_BLOCK_SIZE = 1073741824 := rfl
      omega
    unfold parseHeader
    rw [if_neg g0, if_neg g1, if_neg g2, if_neg g3, if_neg g4, if_neg g5,
      if_neg g6, if_neg g7]
  have htab : decodeTables d CORRECT_MODEL_HEADER_SIZE
      (CORRECT_MODEL_HEADER_SIZE + u32At d 10)
      = some ((List.range N).map fun j =>
          tableEntryAt d (CORRECT_MODEL_HEADER_SIZE + 28 * j)) := by
    unfold decodeTables
    have hiter : (CORRECT_MODEL_HEADER_SIZE + u32At d 10
        - CORRECT_MODEL_HEADER_SIZE + 27) / 28 = N := by
      rw [hT]
      omega
    rw [hiter]
    exact decodeTablesAux_complete d N CORRECT_MODEL_HEADER_SIZE htb
  have hblocks : ∀ t ∈ (List.range N).map
      (fun j => tableEntryAt d (CORRECT_MODEL_HEADER_SIZE + 28 * j)),
      blockCheck d t = .kOk := by
    intro t htmem
    obtain ⟨j, hjr, rfl⟩ := List.mem_map.mp htmem
    exact entryOK_blockCheck d _ (hentries j (List.mem_range.mp hjr))
  have hdb := decodeBlocks_complete d _ hblocks
  have hok : importKMDBytes d
      = .ok ⟨u32At d 0, byteAt d 4, (if byteAt d 5 > 8 then 0 else byteAt d 5),
             u32At d 6, u32At d 10, u32At d 14⟩
          ((List.range N).map fun j =>
            tableEntryAt d (CORRECT_MODEL_HEADER_SIZE + 28 * j))
          (((List.range N).map fun j =>
            tableEntryAt d (CORRECT_MODEL_HEADER_SIZE + 28 * j)).map
              fun t => blockAt d t.blockOffset) := by
    unfold importKMDBytes
    rw [hph]
    simp only []
    rw [htab]
    simp only []
    rw [hdb]
  rw [hok]
  refine ⟨rfl, ?_, ?_, ?_⟩
  · simp [tablesOf]
  · simp [blocksOf]
  · intro j hj
    constructor
    · show ((List.range N).map fun j =>
          tableEntryAt d (CORRECT_MODEL_HEADER_SIZE + 28 * j))[j]?
        = some (tableEntryAt d (CORRECT_MODEL_HEADER_SIZE + 28 * j))
      rw [List.getElem?_map, List.getElem?_range hj]
      rfl
    · show (((List.range N).map fun j =>
          tableEntryAt d (CORRECT_MODEL_HEADER_SIZE + 28 * j)).map
            fun t => blockAt d t.blockOffset)[j]?
        = some (blockAt d
            ((tableEntryAt d (CORRECT_MODEL_HEADER_SIZE + 28 * j)).blockOffset))
      rw [List.getElem?_map, List.getElem?_map, List.getElem?_range hj]
      rfl

/-- Claim C9 (witness): instantiated at `goodFile` with `N = 1`. -/
theorem c9_witness :
    retKind (importKMDBytes goodFile) = some .RESULT_SUCCESS
    ∧ (tablesOf (importKMDBytes goodFile)).length = 1
    ∧ (blocksOf (importKMDBytes goodFile)).length = 1
    ∧ ((tablesOf (importKMDBytes goodFile))[0]?
        = some (tableEntryAt goodFile (CORRECT_MODEL_HEADER_SIZE + 28 * 0))
       ∧ (blocksOf (importKMDBytes goodFile))[0]?
        = some (blockAt goodFile
            ((tableEntryAt goodFile (CORRECT_MODEL_HEADER_SIZE + 28 * 0)).blockOffset))) := by
  have h := c9_wellformed_success goodFile 1 (by decide) (by decide)
    ⟨by decide, by decide, by decide, by decide⟩ (by decide) (by decide)
    (by decide) (by decide) (by decide) (by decide) (by decide) (by decide)
    (fun j hj => by
      have hj0 : j = 0 := by omega
      subst hj0
      decide)
  exact ⟨h.1, h.2.1, h.2.2.1, h.2.2.2 0 (by omega)⟩

/-- Claim C10 (implicit): the number of decoded table entries is
determined solely by `modelTablesSize` — on success the table list has
length `⌈modelTablesSize / 28⌉` — while `modelCount` is used only for
the `≤ MAX_MODEL_COUNT` bound check: rewriting the `modelCount` bytes
(offsets 6..9) of a file, as long as the bound check resolves the same
way, never changes the result kind of the import. -/
theorem c10_table_count (d d' : List Nat) :
    (∀ (h : ModelHeader) (ts : List ModelTable) (bs : List ModelBlock),
        importKMDBytes d = .ok h ts bs →
        ts.length = (h.modelTablesSize + 27) / 28)
    ∧ (d'.length = d.length →
        (∀ i, i < 6 ∨ 10 ≤ i → byteAt d' i = byteAt d i) →
        (u32At d' 6 > MAX_MODEL_COUNT ↔ u32At d 6 > MAX_MODEL_COUNT) →
        retKind (importKMDBytes d') = retKind (importKMDBytes d)) := by
  constructor
  · intro h ts bs hok
    obtain ⟨hph, hdt, _⟩ := importKMDBytes_ok_inv d h ts bs hok
    unfold decodeTables at hdt
    have hlen := decodeTablesAux_length d _ _ ts hdt
    rw [hlen]
    congr 1
    omega
  · intro hlen hag hcnt
    exact retKind_agree d d' hlen (fun i hi => hag i (by omega)) hcnt

/-- Claim C10 (witness): instantiated at `goodFile` (one table entry,
`modelTablesSize = 28`, `⌈28/28⌉ = 1`) and the same file with its
`modelCount` field rewritten from 1 to 2. -/
theorem c10_witness :
    ([goodEntry] : List ModelTable).length = (goodHdr.modelTablesSize + 27) / 28
    ∧ retKind (importKMDBytes (goodFile.set 6 2)) = retKind (importKMDBytes goodFile) := by
  have h := c10_table_count goodFile (goodFile.set 6 2)
  exact ⟨h.1 goodHdr [goodEntry] [blockAt goodFile 46] (by decide),
    h.2 (by simp) (fun i hi => byteAt_set_ne goodFile 6 2 i (by omega)) (by decide)⟩

end KMD
